import Mathlib

/-!
Shallow embedding of the `dpool` sharded connection pool
(`dpool.h`, `pool-shard.h`, `pooled-object.h`, `dpool-exception.h`).

The per-shard state machine (`PoolShard`) is embedded as pure state-passing
functions: `shardGet` (the body of `PoolShard::get`, with the outcome of the
connection `open()` supplied as a boolean oracle), `shardPut`
(`PoolShard::put`) and `shardClose` (`PoolShard::close` / `empty`).  The
pool-level dispatch `DPool::get` is embedded as `dpoolGet`, with shard
behaviour abstracted into an oracle.  The health prober's availability
updates (`DPool::markAvailable`) are embedded as `poolMarkAvailable` over a
pool-availability state.
-/

namespace DpoolModel

/-- Embedding of `PoolConfig` (`pooled-object.h`).  All fields are C++ `int`. -/
structure PoolConfig where
  maxIdle : Int
  maxActive : Int
  maxFails : Int
  connTimeoutMs : Int
  dataTimeoutMs : Int
deriving DecidableEq

/-- The default constructor `PoolConfig()`:
`connTimeoutMs(100), dataTimeoutMs(100), maxIdle(10), maxActive(100), maxFails(5)`. -/
def poolConfigDefault : PoolConfig :=
  { maxIdle := 10, maxActive := 100, maxFails := 5,
    connTimeoutMs := 100, dataTimeoutMs := 100 }

/-- The explicit-argument constructor
`PoolConfig(int connTimeoutMs, int dataTimeoutMs, int maxIdle, int maxActive, int maxFails)`.
As in the source, the member initializer list stores the literals `100` for
both timeouts, ignoring the `connTimeoutMs` and `dataTimeoutMs` arguments. -/
def mkPoolConfig (connTimeoutMs dataTimeoutMs maxIdle maxActive maxFails : Int) : PoolConfig :=
  { maxIdle := maxIdle, maxActive := maxActive, maxFails := maxFails,
    connTimeoutMs := 100, dataTimeoutMs := 100 }

/-- Asserts how the arguments are used (keeps the constructor arguments live
in the signature the way the C++ declaration lists them). -/
theorem mkPoolConfig_fields (a b c d e : Int) :
    (mkPoolConfig a b c d e).maxIdle = c ∧ (mkPoolConfig a b c d e).maxActive = d ∧
      (mkPoolConfig a b c d e).maxFails = e ∧ (mkPoolConfig a b c d e).connTimeoutMs = 100 ∧
      (mkPoolConfig a b c d e).dataTimeoutMs = 100 :=
  ⟨rfl, rfl, rfl, rfl, rfl⟩

/-- Embedding of a `PooledObject` (a pooled connection): the pool-relevant
slots are an identity, the `borrowed_` flag, the `dataSource_` back-pointer
(modelled as a presence bit) and the two timeouts the object was constructed
with. -/
structure Conn where
  id : Nat
  borrowed : Bool
  dataSource : Bool
  connTimeoutMs : Int
  dataTimeoutMs : Int
deriving DecidableEq

/-- The counter block of `PoolStats` that `PoolShard` mutates (C++ `long`s). -/
structure PoolStatsCounters where
  numGet : Int
  numPut : Int
  numBroken : Int
  numDial : Int
  numDialFail : Int
  numEvict : Int
  numClose : Int
deriving DecidableEq

def statsZero : PoolStatsCounters :=
  { numGet := 0, numPut := 0, numBroken := 0, numDial := 0,
    numDialFail := 0, numEvict := 0, numClose := 0 }

/-- Embedding of the mutable state of a `PoolShard` together with its
configuration constants.  `active_` is `int32_t`, `fails_` is
`std::atomic<unsigned>` (wraps modulo `2^32`), `kMaxFails_` is `uint32_t`. -/
structure ShardState where
  idle : List Conn
  active : Int
  fails : Nat
  closed : Bool
  available : Bool
  kMaxIdle : Int
  kMaxActive : Int
  kMaxFails : Nat
  connTimeoutMs : Int
  dataTimeoutMs : Int
  stats : PoolStatsCounters
deriving DecidableEq

/-- `PoolShard::kWait_` is the hard-coded constant `false` (`pool-shard.h`). -/
def kWait_ : Bool := false

/-- The `PoolShard(server, config)` constructor. The `uint32_t kMaxFails_`
member is initialized from the `int config.maxFails` by the C++
int-to-unsigned conversion (reduction modulo `2^32`). -/
def mkShard (config : PoolConfig) : ShardState :=
  { idle := [], active := 0, fails := 0, closed := false, available := true,
    kMaxIdle := config.maxIdle, kMaxActive := config.maxActive,
    kMaxFails := (config.maxFails.emod (2 ^ 32)).toNat,
    connTimeoutMs := config.connTimeoutMs, dataTimeoutMs := config.dataTimeoutMs,
    stats := statsZero }

/-- The value of a C++ `int` seen through a conversion to `size_t`
(the comparison `idle_.size() > kMaxIdle_` converts `kMaxIdle_` to an
unsigned 64-bit value). -/
def asSizeT (i : Int) : Nat := (i % (2 ^ 64)).toNat

/-- Result of one `PoolShard::get` call: the returned connection (null is
`none`), the shard state at the final mutex boundary, and how many times the
condition-variable wait was entered (the `kWait_` branch). -/
structure ShardGetResult where
  conn : Option Conn
  state : ShardState
  waits : Nat
deriving DecidableEq

def bumpNumGet (st : ShardState) : ShardState :=
  { st with stats := { st.stats with numGet := st.stats.numGet + 1 } }

def bumpNumDial (st : ShardState) : ShardState :=
  { st with stats := { st.stats with numDial := st.stats.numDial + 1 } }

def bumpNumDialFail (st : ShardState) : ShardState :=
  { st with stats := { st.stats with numDialFail := st.stats.numDialFail + 1 } }

def bumpNumPut (st : ShardState) : ShardState :=
  { st with stats := { st.stats with numPut := st.stats.numPut + 1 } }

def bumpNumBroken (st : ShardState) : ShardState :=
  { st with stats := { st.stats with numBroken := st.stats.numBroken + 1 } }

def bumpNumEvict (st : ShardState) : ShardState :=
  { st with stats := { st.stats with numEvict := st.stats.numEvict + 1 } }

def bumpNumClose (st : ShardState) : ShardState :=
  { st with stats := { st.stats with numClose := st.stats.numClose + 1 } }

/-- Embedding of `PoolShard::get` (`pool-shard.h`).  `openOk` is the outcome
of the `c->open()` call on a freshly dialled connection; `freshId` is the
identity of the freshly constructed connection.  The `while (true)` loop can
only repeat its body after a condition-variable wake inside the `kWait_`
branch; since `kWait_` is the constant `false`, every path through the body
returns, so the loop is embedded as its single-pass body, with entry into the
(dead) wait branch recorded in `waits`. -/
def shardGet (st0 : ShardState) (openOk : Bool) (freshId : Nat) : ShardGetResult :=
  let st := bumpNumGet st0
  match st.idle with
  | c :: rest =>
      { conn := some { c with borrowed := true },
        state := { st with idle := rest }, waits := 0 }
  | [] =>
      if st.closed then
        { conn := none, state := st, waits := 0 }
      else if st.kMaxActive = 0 ∨ st.active < st.kMaxActive then
        let stD := bumpNumDial { st with active := st.active + 1 }
        let c : Conn := { id := freshId, borrowed := false, dataSource := false,
                          connTimeoutMs := st.connTimeoutMs,
                          dataTimeoutMs := st.dataTimeoutMs }
        if openOk then
          { conn := some { c with dataSource := true, borrowed := true },
            state := { stD with fails := 0 }, waits := 0 }
        else
          { conn := none,
            state := bumpNumDialFail
              { stD with fails := (stD.fails + 1) % 2 ^ 32, active := stD.active - 1 },
            waits := 0 }
      else if kWait_ then
        { conn := none, state := st, waits := 1 }
      else
        { conn := none, state := st, waits := 0 }

/-- Result of one `PoolShard::put` call: the shard state at the final mutex
boundary, the connection destroyed outside the lock (if any), and the final
field values of the released connection object. -/
structure ShardPutResult where
  state : ShardState
  victim : Option Conn
  connAfter : Conn
deriving DecidableEq

/-- Embedding of `PoolShard::put` (`pool-shard.h`). -/
def shardPut (st0 : ShardState) (pc : Conn) (broken : Bool) : ShardPutResult :=
  let st := bumpNumPut st0
  if pc.borrowed = false then
    { state := st, victim := none, connAfter := pc }
  else
    let pc1 := { pc with borrowed := false }
    let st1 :=
      if broken then bumpNumBroken { st with fails := (st.fails + 1) % 2 ^ 32 }
      else { st with fails := 0 }
    if st1.closed = false ∧ broken = false then
      let idle1 := pc1 :: st1.idle
      if idle1.length > asSizeT st1.kMaxIdle then
        let victim := idle1.getLastD pc1
        let st2 := bumpNumEvict { st1 with idle := idle1.dropLast }
        { state := bumpNumClose { st2 with active := st2.active - 1 },
          victim := some victim, connAfter := pc1 }
      else
        { state := { st1 with idle := idle1 }, victim := none, connAfter := pc1 }
    else
      { state := bumpNumClose { st1 with active := st1.active - 1 },
        victim := some pc1, connAfter := pc1 }

/-- The drain loop of `PoolShard::empty`: pop the idle stack front,
decrement `active_`, increment `numClose`, until the stack is empty. -/
def drainLoop : List Conn → Int → PoolStatsCounters → Int × PoolStatsCounters
  | [], a, s => (a, s)
  | _ :: rest, a, s => drainLoop rest (a - 1) { s with numClose := s.numClose + 1 }

/-- Embedding of `PoolShard::close`: compare-and-set `closed_` false→true
(no-op when already closed) and then drain the idle stack via `empty()`. -/
def shardClose (st : ShardState) : ShardState :=
  if st.closed then st
  else
    let p := drainLoop st.idle st.active st.stats
    { st with closed := true, idle := [], active := p.1, stats := p.2 }

/-- Embedding of `PoolShard::isSuspectable`: `fails_ >= kMaxFails_`. -/
def isSuspectable (st : ShardState) : Bool := decide (st.kMaxFails ≤ st.fails)

/-- Behaviour visible to `DPool::get` from its shards: the availability flag
of each shard index, and the result of the `PoolShard::get` call made at
try number `t` of this `DPool::get` call (a connection identity, or `none`
for a null return). -/
structure DPoolOracle where
  avail : Nat → Bool
  acq : Nat → Option Nat

/-- Result of one `DPool::get` call: the returned connection identity
(`none` models the `DPoolException` throw after max retries), the final
value of the atomic cursor `index_`, and the list of shard indices on which
`PoolShard::get` was actually invoked, in order. -/
structure PoolGetResult where
  res : Option Nat
  cursor : Nat
  calls : List Nat
deriving DecidableEq

/-- The retry loop of `DPool::get` (`dpool.h`): `r` tries remain, the current
try number is `t`, and `cur` is the current value of the atomic `index_`.
Each examined index is `(localIdx + t) % N`; an unavailable shard is skipped
after `index_.fetch_add(1)`; a null `PoolShard::get` also costs an extra
`index_.fetch_add(1)`; the first non-null connection is returned. -/
def goGet (N : Nat) (o : DPoolOracle) (localIdx : Nat) : Nat → Nat → Nat → PoolGetResult
  | cur, _, 0 => { res := none, cursor := cur, calls := [] }
  | cur, t, r + 1 =>
      let idx := (localIdx + t) % N
      if o.avail idx = false then
        goGet N o localIdx (cur + 1) (t + 1) r
      else
        match o.acq t with
        | some c => { res := some c, cursor := cur, calls := [idx] }
        | none =>
            let rest := goGet N o localIdx (cur + 1) (t + 1) r
            { res := rest.res, cursor := rest.cursor, calls := idx :: rest.calls }

/-- Embedding of `DPool::get`: `localIndex = index_.fetch_add(1)` snapshots
the old cursor value `c0` (the cursor becomes `c0 + 1`), then up to 5 tries
are made.  A `res` of `none` models the
`throw DPoolException("failed to get connection after max retries", ...)`. -/
def dpoolGet (N : Nat) (o : DPoolOracle) (c0 : Nat) : PoolGetResult :=
  goGet N o c0 (c0 + 1) 0 5

/-- Embedding of `DPoolException` (`dpool-exception.h`): the payload carried
to the caller is the message, the source file and the line. Strings are
modelled as lists of characters. -/
structure DPoolExceptionModel where
  errmsg : List Char
  file : List Char
  line : Nat
deriving DecidableEq

/-- Embedding of `InetSocketAddress::to_string`: `host + ":" + to_string(port)`. -/
def inetToString (host : List Char) (port : Nat) : List Char :=
  host ++ ([':'] ++ (Nat.repr port).data)

/-- The exception object thrown by `DPool::get` after max retries
(`dpool.h`, line 68): a fixed message plus `__FILE__`/`__LINE__`. -/
def acquireExhaustedExn : DPoolExceptionModel :=
  { errmsg := "failed to get connection after max retries".data,
    file := "dpool.h".data,
    line := 68 }

/-- Pool-level availability state: the per-shard atomic `available_` flags
and the prober-maintained counter `numAvailable_` (a C++ `int`). -/
structure PoolAvailState where
  flags : List Bool
  numAvailable : Int
deriving DecidableEq

/-- Embedding of `PoolShard::markAvailable`: a compare-and-set of the
`available_` flag with expected value `!avail`; returns whether the flag was
changed, together with the updated flag vector.  An out-of-range index (never
produced by the prober) leaves the flags unchanged. -/
def shardMarkAvailable (flags : List Bool) (i : Nat) (avail : Bool) : Bool × List Bool :=
  if flags.getD i avail = !avail then (true, flags.set i avail) else (false, flags)

/-- Embedding of `DPool::markAvailable` (`dpool.h`).  `N = servers_.size()`
equals `flags.length`.  Mark-up increments `numAvailable_` when the flag
actually flips; mark-down is allowed only behind the quorum guard
`numAvailable_ * 3 > servers_.size() * 2` and decrements `numAvailable_`
when the flag actually flips. -/
def poolMarkAvailable (p : PoolAvailState) (i : Nat) (b : Bool) : PoolAvailState :=
  if b then
    let r := shardMarkAvailable p.flags i true
    if r.1 then { flags := r.2, numAvailable := p.numAvailable + 1 } else p
  else
    if p.numAvailable * 3 > (p.flags.length : Int) * 2 then
      let r := shardMarkAvailable p.flags i false
      if r.1 then { flags := r.2, numAvailable := p.numAvailable - 1 } else p
    else p

/-- A sequence of prober mark-up/mark-down calls applied in order. -/
def runMarks (p : PoolAvailState) : List (Nat × Bool) → PoolAvailState
  | [] => p
  | (i, b) :: rest => runMarks (poolMarkAvailable p i b) rest

/-- The pool's initial availability state (`DPool::DPool`): every shard
available and `numAvailable_ = servers_.size()`. -/
def initPool (N : Nat) : PoolAvailState :=
  { flags := List.replicate N true, numAvailable := (N : Int) }

/-- The capacity invariant of a shard (spec section "Testable properties"):
`active ≤ maxActive` when `maxActive > 0`, and `idle.size() ≤ maxIdle`. -/
def CapInv (st : ShardState) : Prop :=
  (0 < st.kMaxActive → st.active ≤ st.kMaxActive) ∧ (st.idle.length : Int) ≤ st.kMaxIdle

end DpoolModel

namespace DpoolModel

/-- Sanity: a fresh shard with the default config dials and returns a borrowed
connection carrying the configured timeouts. -/
example :
    (shardGet (mkShard poolConfigDefault) true 7).conn =
      some { id := 7, borrowed := true, dataSource := true,
             connTimeoutMs := 100, dataTimeoutMs := 100 } := by decide

example : (shardGet (mkShard poolConfigDefault) false 7).conn = none := by decide

example :
    (poolMarkAvailable (initPool 3) 0 false).numAvailable = 2 := by decide

example :
    (poolMarkAvailable (poolMarkAvailable (initPool 3) 0 false) 1 false).numAvailable = 2 := by
  decide

theorem asSizeT_eq_toNat (m : Int) (h0 : 0 ≤ m) (h1 : m < 2 ^ 64) :
    asSizeT m = m.toNat := by
  unfold asSizeT
  rw [Int.emod_eq_of_lt h0 h1]

/-- C4: the `PoolConfig(connTimeoutMs, dataTimeoutMs, maxIdle, maxActive, maxFails)`
constructor stores the literal defaults `100`/`100` instead of its two timeout
arguments, so a shard built from `PoolConfig(200, 300, 10, 100, 5)` creates
fresh connections carrying `connTimeoutMs = 100` and `dataTimeoutMs = 100`,
not the `200`/`300` the caller passed. -/
theorem poolConfig_ctor_drops_timeouts :
    (shardGet (mkShard (mkPoolConfig 200 300 10 100 5)) true 0).conn.map
        (fun c => (c.connTimeoutMs, c.dataTimeoutMs)) = some (100, 100) ∧
      (mkPoolConfig 200 300 10 100 5).connTimeoutMs ≠ 200 ∧
      (mkPoolConfig 200 300 10 100 5).dataTimeoutMs ≠ 300 := by
  decide

/-- C5: when the idle stack is empty, the shard is open and capacity permits a
dial, a failing `open()` makes `PoolShard::get` return null with `fails` and
`numDialFail` incremented, `active` rolled back to its pre-call value, and
`numGet`/`numDial` each incremented once for the attempt. -/
theorem shardGet_open_failure_rollback (st : ShardState) (fid : Nat)
    (hidle : st.idle = []) (hcl : st.closed = false)
    (hcap : st.kMaxActive = 0 ∨ st.active < st.kMaxActive)
    (hf : st.fails + 1 < 2 ^ 32) :
    (shardGet st false fid).conn = none ∧
      (shardGet st false fid).state.active = st.active ∧
      (shardGet st false fid).state.fails = st.fails + 1 ∧
      (shardGet st false fid).state.stats.numDialFail = st.stats.numDialFail + 1 ∧
      (shardGet st false fid).state.stats.numGet = st.stats.numGet + 1 ∧
      (shardGet st false fid).state.stats.numDial = st.stats.numDial + 1 := by
  obtain ⟨idle, active, fails, closed, avail, mi, ma, mf, ct, dt, sst⟩ := st
  simp only at hidle hcl hcap hf
  subst hidle hcl
  rcases hcap with hma | hlt
  · subst hma
    simp [shardGet, bumpNumGet, bumpNumDial, bumpNumDialFail]
    omega
  · simp [shardGet, bumpNumGet, bumpNumDial, bumpNumDialFail, hlt]
    omega

/-- Witness for C5 at a concrete state: a fresh default shard whose dial
fails. -/
theorem shardGet_open_failure_rollback_witness :
    (shardGet (mkShard poolConfigDefault) false 3).conn = none ∧
      (shardGet (mkShard poolConfigDefault) false 3).state.active =
        (mkShard poolConfigDefault).active ∧
      (shardGet (mkShard poolConfigDefault) false 3).state.fails =
        (mkShard poolConfigDefault).fails + 1 ∧
      (shardGet (mkShard poolConfigDefault) false 3).state.stats.numDialFail =
        (mkShard poolConfigDefault).stats.numDialFail + 1 ∧
      (shardGet (mkShard poolConfigDefault) false 3).state.stats.numGet =
        (mkShard poolConfigDefault).stats.numGet + 1 ∧
      (shardGet (mkShard poolConfigDefault) false 3).state.stats.numDial =
        (mkShard poolConfigDefault).stats.numDial + 1 :=
  shardGet_open_failure_rollback (mkShard poolConfigDefault) 3 rfl rfl
    (Or.inr (by decide)) (by decide)

/-- C6: a duplicate release (the connection's `borrowed` flag already false)
increments `numPut` and changes nothing else: the shard state is otherwise
untouched, no connection is destroyed, and the connection object itself is
returned to the caller's hands unmodified. -/
theorem shardPut_duplicate_release (st : ShardState) (pc : Conn) (broken : Bool)
    (h : pc.borrowed = false) :
    shardPut st pc broken =
      { state := { st with stats := { st.stats with numPut := st.stats.numPut + 1 } },
        victim := none, connAfter := pc } := by
  simp [shardPut, bumpNumPut, h]

/-- Witness for C6 at a concrete state. -/
theorem shardPut_duplicate_release_witness :
    shardPut (mkShard poolConfigDefault) ⟨5, false, true, 100, 100⟩ true =
      { state := { mkShard poolConfigDefault with
                   stats := { (mkShard poolConfigDefault).stats with
                              numPut := (mkShard poolConfigDefault).stats.numPut + 1 } },
        victim := none, connAfter := ⟨5, false, true, 100, 100⟩ } :=
  shardPut_duplicate_release (mkShard poolConfigDefault) ⟨5, false, true, 100, 100⟩ true rfl

/-- C8: the failure counter is incremented once by an `open()` failure inside
`PoolShard::get` and once by a broken release, reset to `0` by a successful
`open()` and by a clean non-duplicate release, and `isSuspectable()` holds
exactly when `fails ≥ maxFails`. -/
theorem shard_fails_discipline :
    (∀ st fid, st.idle = [] → st.closed = false →
        (st.kMaxActive = 0 ∨ st.active < st.kMaxActive) →
        (shardGet st true fid).state.fails = 0) ∧
      (∀ st fid, st.idle = [] → st.closed = false →
        (st.kMaxActive = 0 ∨ st.active < st.kMaxActive) → st.fails + 1 < 2 ^ 32 →
        (shardGet st false fid).state.fails = st.fails + 1) ∧
      (∀ st pc, pc.borrowed = true → st.fails + 1 < 2 ^ 32 →
        (shardPut st pc true).state.fails = st.fails + 1) ∧
      (∀ st pc, pc.borrowed = true → (shardPut st pc false).state.fails = 0) ∧
      (∀ st, isSuspectable st = true ↔ st.fails ≥ st.kMaxFails) := by
  refine ⟨?_, ?_, ?_, ?_, ?_⟩
  · intro st fid hidle hcl hcap
    obtain ⟨idle, active, fails, closed, avail, mi, ma, mf, ct, dt, sst⟩ := st
    simp only at hidle hcl hcap
    subst hidle hcl
    rcases hcap with hma | hlt
    · subst hma
      simp [shardGet, bumpNumGet, bumpNumDial]
    · simp [shardGet, bumpNumGet, bumpNumDial, hlt]
  · intro st fid hidle hcl hcap hf
    exact (shardGet_open_failure_rollback st fid hidle hcl hcap hf).2.2.1
  · intro st pc hb hf
    obtain ⟨idle, active, fails, closed, avail, mi, ma, mf, ct, dt, sst⟩ := st
    simp only at hf
    simp [shardPut, bumpNumPut, bumpNumBroken, bumpNumClose, hb]
    omega
  · intro st pc hb
    obtain ⟨idle, active, fails, closed, avail, mi, ma, mf, ct, dt, sst⟩ := st
    by_cases hcl : closed <;>
      simp [shardPut, bumpNumPut, bumpNumClose, bumpNumEvict, hb, hcl] <;>
      split <;> simp
  · intro st
    simp [isSuspectable, ge_iff_le]

/-- Witness for C8 at concrete states: a broken release on a fresh default
shard bumps `fails` to 1, and a fresh shard is not suspectable. -/
theorem shard_fails_discipline_witness :
    (shardPut (mkShard poolConfigDefault) ⟨5, true, true, 100, 100⟩ true).state.fails =
        (mkShard poolConfigDefault).fails + 1 ∧
      (isSuspectable (mkShard poolConfigDefault) = true ↔
        (mkShard poolConfigDefault).fails ≥ (mkShard poolConfigDefault).kMaxFails) :=
  ⟨shard_fails_discipline.2.2.1 (mkShard poolConfigDefault) ⟨5, true, true, 100, 100⟩
      rfl (by decide),
    shard_fails_discipline.2.2.2.2 (mkShard poolConfigDefault)⟩

/-- C10: `kWait_` is the constant `false`, so no execution of
`PoolShard::get` ever enters the condition-variable wait branch, and when the
idle stack is empty, the shard is open and capacity is exhausted
(`maxActive > 0` and `active ≥ maxActive`), the call fails fast: it returns
null immediately with only `numGet` incremented. -/
theorem shardGet_failfast_no_cv_wait :
    kWait_ = false ∧
      (∀ st ok fid, (shardGet st ok fid).waits = 0) ∧
      (∀ st ok fid, st.idle = [] → st.closed = false → 0 < st.kMaxActive →
        st.kMaxActive ≤ st.active →
        (shardGet st ok fid).conn = none ∧
          (shardGet st ok fid).state =
            { st with stats := { st.stats with numGet := st.stats.numGet + 1 } }) := by
  refine ⟨rfl, ?_, ?_⟩
  · intro st ok fid
    obtain ⟨idle, active, fails, closed, avail, mi, ma, mf, ct, dt, sst⟩ := st
    cases idle <;>
      simp only [shardGet, bumpNumGet, kWait_] <;>
      split_ifs <;> simp_all
  · intro st ok fid hidle hcl hma hle
    obtain ⟨idle, active, fails, closed, avail, mi, ma, mf, ct, dt, sst⟩ := st
    simp only at hidle hcl hma hle
    subst hidle hcl
    have hcap : ¬(ma = 0 ∨ active < ma) := by omega
    simp [shardGet, bumpNumGet, kWait_, hcap]

/-- Witness for C10 at a concrete state: a shard at `maxActive = active = 1`
with an empty idle stack fails fast. -/
theorem shardGet_failfast_no_cv_wait_witness :
    (shardGet { mkShard poolConfigDefault with kMaxActive := 1, active := 1 } true 0).conn =
        none ∧
      (shardGet { mkShard poolConfigDefault with kMaxActive := 1, active := 1 } true 0).state =
        { { mkShard poolConfigDefault with kMaxActive := 1, active := 1 } with
          stats := { { mkShard poolConfigDefault with
                       kMaxActive := 1, active := 1 }.stats with
                     numGet := { mkShard poolConfigDefault with
                                 kMaxActive := 1, active := 1 }.stats.numGet + 1 } } :=
  shardGet_failfast_no_cv_wait.2.2
    { mkShard poolConfigDefault with kMaxActive := 1, active := 1 } true 0
    rfl rfl (by decide) (by decide)

/-- C7: LIFO idle round-trip.  On an open shard, a clean, non-duplicate,
non-evicted release parks the connection at the front of the idle stack, and
the next `PoolShard::get` on the same shard (no interleaving) pops that front
entry and returns exactly the released connection. -/
theorem shard_lifo_roundtrip (st : ShardState) (pc : Conn) (ok : Bool) (fid : Nat)
    (hb : pc.borrowed = true) (hcl : st.closed = false)
    (hmi0 : 0 ≤ st.kMaxIdle) (hmi1 : st.kMaxIdle < 2 ^ 64)
    (hroom : (st.idle.length : Int) + 1 ≤ st.kMaxIdle) :
    (shardPut st pc false).state.idle = { pc with borrowed := false } :: st.idle ∧
      (shardPut st pc false).victim = none ∧
      (shardGet (shardPut st pc false).state ok fid).conn = some pc := by
  obtain ⟨idle, active, fails, closed, avail, mi, ma, mf, ct, dt, sst⟩ := st
  obtain ⟨cid, cb, cds, cct, cdt⟩ := pc
  simp only at hb hcl hmi0 hmi1 hroom
  subst hb hcl
  have hnoevict : ¬(idle.length + 1 > asSizeT mi) := by
    rw [asSizeT_eq_toNat mi hmi0 hmi1]
    omega
  simp [shardPut, bumpNumPut, hnoevict, shardGet, bumpNumGet]

/-- Witness for C7 at a concrete state: release then re-acquire on a fresh
default shard returns the same connection. -/
theorem shard_lifo_roundtrip_witness :
    (shardPut (mkShard poolConfigDefault) ⟨9, true, true, 100, 100⟩ false).state.idle =
        ({ (⟨9, true, true, 100, 100⟩ : Conn) with borrowed := false } ::
          (mkShard poolConfigDefault).idle) ∧
      (shardPut (mkShard poolConfigDefault) ⟨9, true, true, 100, 100⟩ false).victim = none ∧
      (shardGet (shardPut (mkShard poolConfigDefault) ⟨9, true, true, 100, 100⟩ false).state
          true 0).conn = some ⟨9, true, true, 100, 100⟩ :=
  shard_lifo_roundtrip (mkShard poolConfigDefault) ⟨9, true, true, 100, 100⟩ true 0
    rfl rfl (by decide) (by decide) (by decide)

theorem drainLoop_fst (l : List Conn) (a : Int) (s : PoolStatsCounters) :
    (drainLoop l a s).1 = a - l.length := by
  induction l generalizing a s with
  | nil => simp [drainLoop]
  | cons c rest ih =>
      simp [drainLoop, ih]
      omega

/-- C3: each shard operation preserves the capacity invariant
(`active ≤ maxActive` when `maxActive > 0`, and `idle.size() ≤ maxIdle`),
and `PoolShard::get` increments `active` only when `maxActive == 0` or
`active < maxActive`. -/
theorem shard_capacity_preserved (st : ShardState)
    (hmi0 : 0 ≤ st.kMaxIdle) (hmi1 : st.kMaxIdle < 2 ^ 64) (hinv : CapInv st) :
    (∀ ok fid, CapInv (shardGet st ok fid).state ∧
        ((shardGet st ok fid).state.active > st.active →
          st.kMaxActive = 0 ∨ st.active < st.kMaxActive)) ∧
      (∀ pc broken, CapInv (shardPut st pc broken).state) ∧
      CapInv (shardClose st) := by
  obtain ⟨idle, active, fails, closed, avail, mi, ma, mf, ct, dt, sst⟩ := st
  obtain ⟨hact, hidle⟩ := hinv
  simp only at hmi0 hmi1 hact hidle
  refine ⟨?_, ?_, ?_⟩
  · intro ok fid
    cases idle with
    | cons c rest =>
        refine ⟨⟨?_, ?_⟩, ?_⟩ <;>
          simp only [shardGet, bumpNumGet] <;> simp at hidle ⊢ <;> omega
    | nil =>
        by_cases hcl : closed
        · simp [shardGet, bumpNumGet, hcl, CapInv]
          omega
        · by_cases hcap : ma = 0 ∨ active < ma
          · cases ok <;>
              simp [shardGet, bumpNumGet, bumpNumDial, bumpNumDialFail, hcl, hcap, CapInv] <;>
              omega
          · simp [shardGet, bumpNumGet, kWait_, hcl, hcap, CapInv]
            omega
  · intro pc broken
    have hsz : ((asSizeT mi : Nat) : Int) = mi := by
      rw [asSizeT_eq_toNat mi hmi0 hmi1, Int.toNat_of_nonneg hmi0]
    simp only [shardPut, bumpNumPut, bumpNumBroken, bumpNumEvict, bumpNumClose]
    split_ifs <;> simp_all [CapInv, List.length_dropLast] <;> omega
  · by_cases hcl : closed
    · simp [shardClose, hcl, CapInv]
      exact ⟨hact, hidle⟩
    · simp [shardClose, hcl, CapInv, drainLoop_fst]
      omega

/-- Witness for C3 at a concrete state: the default fresh shard satisfies the
invariant and every operation keeps it. -/
theorem shard_capacity_preserved_witness :
    CapInv (shardGet (mkShard poolConfigDefault) true 0).state ∧
      CapInv (shardPut (mkShard poolConfigDefault) ⟨0, true, true, 100, 100⟩ false).state ∧
      CapInv (shardClose (mkShard poolConfigDefault)) :=
  ⟨(shard_capacity_preserved (mkShard poolConfigDefault) (by decide) (by decide)
        ⟨by intro _; decide, by decide⟩).1 true 0 |>.1,
    (shard_capacity_preserved (mkShard poolConfigDefault) (by decide) (by decide)
        ⟨by intro _; decide, by decide⟩).2.1 ⟨0, true, true, 100, 100⟩ false,
    (shard_capacity_preserved (mkShard poolConfigDefault) (by decide) (by decide)
        ⟨by intro _; decide, by decide⟩).2.2⟩

theorem bool_ne_false (b : Bool) (h : ¬b = false) : b = true := by
  cases b
  · exact absurd rfl h
  · rfl

theorem goGet_res_none (N : Nat) (o : DPoolOracle) (localIdx : Nat) :
    ∀ r t cur, (goGet N o localIdx cur t r).res = none →
      (goGet N o localIdx cur t r).cursor = cur + r ∧
        ∀ j, j < r → o.avail ((localIdx + (t + j)) % N) = false ∨ o.acq (t + j) = none := by
  intro r
  induction r with
  | zero =>
      intro t cur _
      simp [goGet]
  | succ r ih =>
      intro t cur h
      by_cases ha : o.avail ((localIdx + t) % N) = false
      · rw [goGet, if_pos ha] at h ⊢
        obtain ⟨hcur, hall⟩ := ih (t + 1) (cur + 1) h
        refine ⟨by omega, ?_⟩
        intro j hj
        match j with
        | 0 => exact Or.inl (by simpa using ha)
        | j' + 1 =>
            have hx := hall j' (by omega)
            rw [show t + 1 + j' = t + (j' + 1) from by omega] at hx
            exact hx
      · rw [goGet, if_neg ha] at h ⊢
        cases hacq : o.acq t with
        | some c => rw [hacq] at h; simp at h
        | none =>
            rw [hacq] at h
            simp only [] at h ⊢
            obtain ⟨hcur, hall⟩ := ih (t + 1) (cur + 1) h
            refine ⟨by omega, ?_⟩
            intro j hj
            match j with
            | 0 => exact Or.inr (by simpa using hacq)
            | j' + 1 =>
                have hx := hall j' (by omega)
                rw [show t + 1 + j' = t + (j' + 1) from by omega] at hx
                exact hx

theorem goGet_res_some (N : Nat) (o : DPoolOracle) (localIdx : Nat) :
    ∀ r t cur c, (goGet N o localIdx cur t r).res = some c →
      ∃ j, j < r ∧ o.avail ((localIdx + (t + j)) % N) = true ∧ o.acq (t + j) = some c ∧
        (∀ s, s < j → o.avail ((localIdx + (t + s)) % N) = false ∨ o.acq (t + s) = none) ∧
        (goGet N o localIdx cur t r).cursor = cur + j := by
  intro r
  induction r with
  | zero =>
      intro t cur c h
      simp [goGet] at h
  | succ r ih =>
      intro t cur c h
      by_cases ha : o.avail ((localIdx + t) % N) = false
      · rw [goGet, if_pos ha] at h ⊢
        obtain ⟨j, hj, h1, h2, h3, h4⟩ := ih (t + 1) (cur + 1) c h
        refine ⟨j + 1, by omega, ?_, ?_, ?_, by omega⟩
        · rw [show t + (j + 1) = t + 1 + j from by omega]; exact h1
        · rw [show t + (j + 1) = t + 1 + j from by omega]; exact h2
        · intro s hs
          match s with
          | 0 => exact Or.inl (by simpa using ha)
          | s' + 1 =>
              have hx := h3 s' (by omega)
              rw [show t + 1 + s' = t + (s' + 1) from by omega] at hx
              exact hx
      · rw [goGet, if_neg ha] at h ⊢
        cases hacq : o.acq t with
        | some c' =>
            rw [hacq] at h
            simp only [Option.some.injEq] at h
            subst h
            refine ⟨0, by omega, ?_, ?_, ?_, ?_⟩
            · simpa using bool_ne_false _ ha
            · simpa using hacq
            · intro s hs; omega
            · simp only []
              omega
        | none =>
            rw [hacq] at h
            simp only [] at h ⊢
            obtain ⟨j, hj, h1, h2, h3, h4⟩ := ih (t + 1) (cur + 1) c h
            refine ⟨j + 1, by omega, ?_, ?_, ?_, by omega⟩
            · rw [show t + (j + 1) = t + 1 + j from by omega]; exact h1
            · rw [show t + (j + 1) = t + 1 + j from by omega]; exact h2
            · intro s hs
              match s with
              | 0 => exact Or.inr (by simpa using hacq)
              | s' + 1 =>
                  have hx := h3 s' (by omega)
                  rw [show t + 1 + s' = t + (s' + 1) from by omega] at hx
                  exact hx

theorem goGet_calls_avail (N : Nat) (o : DPoolOracle) (localIdx : Nat) :
    ∀ r t cur i, i ∈ (goGet N o localIdx cur t r).calls → o.avail i = true := by
  intro r
  induction r with
  | zero =>
      intro t cur i h
      simp [goGet] at h
  | succ r ih =>
      intro t cur i h
      by_cases ha : o.avail ((localIdx + t) % N) = false
      · rw [goGet, if_pos ha] at h
        exact ih (t + 1) (cur + 1) i h
      · rw [goGet, if_neg ha] at h
        cases hacq : o.acq t with
        | some c =>
            rw [hacq] at h
            simp only [List.mem_singleton] at h
            subst h
            exact bool_ne_false _ ha
        | none =>
            rw [hacq] at h
            simp only [List.mem_cons] at h
            rcases h with h | h
            · subst h; exact bool_ne_false _ ha
            · exact ih (t + 1) (cur + 1) i h

theorem goGet_all_unavail (N : Nat) (o : DPoolOracle) (localIdx : Nat) (hN : 0 < N)
    (h : ∀ i, i < N → o.avail i = false) :
    ∀ r t cur, goGet N o localIdx cur t r = { res := none, cursor := cur + r, calls := [] } := by
  intro r
  induction r with
  | zero => intro t cur; simp [goGet]
  | succ r ih =>
      intro t cur
      have ha : o.avail ((localIdx + t) % N) = false := h _ (Nat.mod_lt _ hN)
      rw [goGet, if_pos ha, ih (t + 1) (cur + 1)]
      simp only [PoolGetResult.mk.injEq, and_true, true_and]
      omega

/-- C2: `DPool::get` snapshots `local = index_.fetch_add(1)` and examines
shard `(local + t) mod N` for `t = 0..4`; an unavailable shard is skipped
with an extra cursor bump and without calling `PoolShard::get`; a null
`PoolShard::get` also bumps the cursor; the first non-null connection is
returned; after 5 failed tries the call throws (modelled as `res = none`);
with every shard unavailable it fails without any `PoolShard::get` call. -/
theorem dpoolGet_characterization (N : Nat) (o : DPoolOracle) (c0 : Nat) (hN : 0 < N) :
    ((∀ i, i < N → o.avail i = false) →
        dpoolGet N o c0 = { res := none, cursor := c0 + 6, calls := [] }) ∧
      (∀ c, (dpoolGet N o c0).res = some c →
        ∃ j, j < 5 ∧ o.avail ((c0 + j) % N) = true ∧ o.acq j = some c ∧
          (∀ s, s < j → o.avail ((c0 + s) % N) = false ∨ o.acq s = none) ∧
          (dpoolGet N o c0).cursor = c0 + 1 + j) ∧
      ((dpoolGet N o c0).res = none →
        (dpoolGet N o c0).cursor = c0 + 6 ∧
          ∀ j, j < 5 → o.avail ((c0 + j) % N) = false ∨ o.acq j = none) ∧
      (∀ i, i ∈ (dpoolGet N o c0).calls → o.avail i = true) := by
  refine ⟨?_, ?_, ?_, ?_⟩
  · intro h
    unfold dpoolGet
    rw [goGet_all_unavail N o c0 hN h 5 0 (c0 + 1)]
  · intro c h
    simp only [dpoolGet] at h ⊢
    obtain ⟨j, hj, h1, h2, h3, h4⟩ := goGet_res_some N o c0 5 0 (c0 + 1) c h
    exact ⟨j, hj, by simpa using h1, by simpa using h2,
      fun s hs => by simpa using h3 s hs, by omega⟩
  · intro h
    simp only [dpoolGet] at h ⊢
    obtain ⟨hcur, hall⟩ := goGet_res_none N o c0 5 0 (c0 + 1) h
    exact ⟨by omega, fun j hj => by simpa using hall j hj⟩
  · intro i h
    exact goGet_calls_avail N o c0 5 0 (c0 + 1) i h

/-- Witness for C2: one shard, marked unavailable — the call fails after 5
skips with 6 total cursor bumps and no `PoolShard::get` call. -/
theorem dpoolGet_characterization_witness :
    dpoolGet 1 ⟨fun _ => false, fun _ => none⟩ 0 =
      { res := none, cursor := 6, calls := [] } :=
  (dpoolGet_characterization 1 ⟨fun _ => false, fun _ => none⟩ 0 (by decide)).1
    (fun _ _ => rfl)

theorem poolMarkAvailable_flags_length (p : PoolAvailState) (i : Nat) (b : Bool) :
    (poolMarkAvailable p i b).flags.length = p.flags.length := by
  cases b <;>
    simp only [poolMarkAvailable, shardMarkAvailable] <;>
    split_ifs <;>
    simp [List.length_set]

theorem poolMarkAvailable_quorum_step (p : PoolAvailState) (i : Nat) (b : Bool) (Nn : Nat)
    (hlen : p.flags.length = Nn) (hq : (2 * (Nn : Int)) / 3 ≤ p.numAvailable) :
    (2 * (Nn : Int)) / 3 ≤ (poolMarkAvailable p i b).numAvailable := by
  cases b <;>
    simp only [poolMarkAvailable, shardMarkAvailable, hlen] <;>
    split_ifs <;>
    first
      | omega
      | (simp only []; omega)

theorem runMarks_quorum_inv (Nn : Nat) :
    ∀ ops p, p.flags.length = Nn → (2 * (Nn : Int)) / 3 ≤ p.numAvailable →
      (runMarks p ops).flags.length = Nn ∧
        (2 * (Nn : Int)) / 3 ≤ (runMarks p ops).numAvailable := by
  intro ops
  induction ops with
  | nil => intro p hlen hq; exact ⟨hlen, hq⟩
  | cons op rest ih =>
      intro p hlen hq
      obtain ⟨i, b⟩ := op
      have hl := poolMarkAvailable_flags_length p i b
      exact ih (poolMarkAvailable p i b) (by omega)
        (poolMarkAvailable_quorum_step p i b Nn hlen hq)

/-- C1 counterexample: with N = 3 shards all available, a single prober
mark-down passes the quorum guard (9 > 6) and leaves `numAvailable = 2`,
which is exactly two-thirds of N (`2·3 ≤ 3·2`) — so the claim that
`numAvailable` never drops to or below two-thirds of N by a mark-down fails. -/
theorem markAvailable_quorum_counterexample :
    (poolMarkAvailable (initPool 3) 0 false).numAvailable = 2 ∧
      (poolMarkAvailable (initPool 3) 0 false).numAvailable * 3 ≤
        ((initPool 3).flags.length : Int) * 2 ∧
      (poolMarkAvailable (initPool 3) 0 false).flags.getD 0 true = false := by
  decide

/-- C1 (amended): a mark-down flips the shard flag and decrements
`numAvailable` only behind the guard `numAvailable·3 > N·2` evaluated before
the transition (when the guard fails the state is untouched), and
consequently, from an all-available start, any sequence of prober
mark-up/mark-down calls keeps `numAvailable ≥ ⌊2N/3⌋` — a mark-down can
reach exactly `⌊2N/3⌋` (two-thirds of N when 3 divides 2N) but never less. -/
theorem markAvailable_quorum_guard :
    (∀ p i, ¬p.numAvailable * 3 > (p.flags.length : Int) * 2 →
        poolMarkAvailable p i false = p) ∧
      (∀ p i, p.numAvailable * 3 > (p.flags.length : Int) * 2 →
        p.flags.getD i false = true →
        (poolMarkAvailable p i false).flags = p.flags.set i false ∧
          (poolMarkAvailable p i false).numAvailable = p.numAvailable - 1) ∧
      (∀ (Nn : Nat) ops, (2 * (Nn : Int)) / 3 ≤ (runMarks (initPool Nn) ops).numAvailable) := by
  refine ⟨?_, ?_, ?_⟩
  · intro p i h
    simp [poolMarkAvailable, h]
  · intro p i h1 h2
    have h2' : p.flags[i]?.getD false = true := by
      simpa [List.getD] using h2
    simp [poolMarkAvailable, shardMarkAvailable, List.getD, h1, h2']
  · intro Nn ops
    refine (runMarks_quorum_inv Nn ops (initPool Nn) ?_ ?_).2
    · simp [initPool]
    · simp only [initPool]
      omega

/-- Witness for C1 (amended) at concrete inputs: a refused mark-down below
quorum, an accepted mark-down above quorum, and the quorum floor after two
attempted mark-downs on three shards. -/
theorem markAvailable_quorum_guard_witness :
    poolMarkAvailable ⟨[true, false, false], 1⟩ 0 false = ⟨[true, false, false], 1⟩ ∧
      (poolMarkAvailable (initPool 3) 0 false).numAvailable =
        (initPool 3).numAvailable - 1 ∧
      (2 * (3 : Int)) / 3 ≤ (runMarks (initPool 3) [(0, false), (1, false)]).numAvailable :=
  ⟨markAvailable_quorum_guard.1 ⟨[true, false, false], 1⟩ 0 (by decide),
    (markAvailable_quorum_guard.2.1 (initPool 3) 0 (by decide) (by decide)).2,
    markAvailable_quorum_guard.2.2 3 [(0, false), (1, false)]⟩

/-- C9 counterexample: for the endpoint `127.0.0.1:8080`, neither the message
nor the file of the `DPoolException` thrown after max retries contains the
endpoint string — the exhaustion error surfaces no endpoint context. -/
theorem acquireExhausted_no_endpoint_counterexample :
    ¬inetToString "127.0.0.1".data 8080 <:+: acquireExhaustedExn.errmsg ∧
      ¬inetToString "127.0.0.1".data 8080 <:+: acquireExhaustedExn.file := by
  constructor
  · intro h
    exact absurd
      (h.subset (show (':' : Char) ∈ inetToString "127.0.0.1".data 8080 by decide))
      (by decide)
  · intro h
    exact absurd
      (h.subset (show (':' : Char) ∈ inetToString "127.0.0.1".data 8080 by decide))
      (by decide)

/-- C9 (amended): the `AcquireExhausted` exception carries only the fixed
message "failed to get connection after max retries" plus source file and
line; since every endpoint string `host:port` contains a colon and the
message contains none, no endpoint appears in the message for any endpoint
whatsoever — endpoint context is only written to the stderr log. -/
theorem acquireExhausted_fixed_message :
    acquireExhaustedExn.errmsg = "failed to get connection after max retries".data ∧
      ∀ host port, ¬inetToString host port <:+: acquireExhaustedExn.errmsg := by
  refine ⟨rfl, ?_⟩
  intro host port h
  have hc : ':' ∈ inetToString host port := by
    simp [inetToString]
  exact absurd (h.subset hc) (by decide)

/-- Witness for C9 (amended): no endpoint string, e.g. `10.0.0.1:6379`,
occurs in the exhaustion message. -/
theorem acquireExhausted_fixed_message_witness :
    ¬inetToString "10.0.0.1".data 6379 <:+: acquireExhaustedExn.errmsg :=
  acquireExhausted_fixed_message.2 "10.0.0.1".data 6379

end DpoolModel
